import Mathlib

/-!
Verification of the SimpleVector repository (src/vector.h and
src/simple_vector.h): a shallow embedding of the two dynamic-array
containers `Vector<T>` (vector.h, backed by `RawMemory<T>`) and
`SimpleVector<Type>` (simple_vector.h, backed by `ArrayPtr<Type>`),
with theorems checking the specification's claims.

The observable state of either container is the sequence of live
elements (the first `size_` slots of the buffer) together with the
capacity of the buffer.  We model it as a list `data` (so the size is
`data.length`) plus a natural `cap`.
-/

/-- Observable state of a dynamic-array container: the live elements
(first `size_` slots, in order) and the buffer capacity. -/
structure VecState (α : Type) where
  data : List α
  cap : Nat
deriving DecidableEq

/-! ## SimpleVector (src/simple_vector.h) -/

/-- `SimpleVector() = default` : size 0, capacity 0, null buffer. -/
def SimpleVector.emptyVec (α : Type) : VecState α := ⟨[], 0⟩

/-- `SimpleVector(size_t size)` : `size` slots filled with `Type()`,
capacity = size. -/
def SimpleVector.sized (α : Type) [Inhabited α] (n : Nat) : VecState α :=
  ⟨List.replicate n default, n⟩

/-- `SimpleVector(size_t size, const Type& value)` : `size` copies of
`value`, capacity = size. -/
def SimpleVector.sizedVal {α : Type} (n : Nat) (v : α) : VecState α :=
  ⟨List.replicate n v, n⟩

/-- `SimpleVector(std::initializer_list<Type> init)` : elements copied
from the list, size = capacity = init.size(). -/
def SimpleVector.initListCtor {α : Type} (l : List α) : VecState α :=
  ⟨l, l.length⟩

/-- `SimpleVector(const ReserveProxyObj&)` : buffer of the requested
capacity, size left at 0. -/
def SimpleVector.reserveProxyCtor (α : Type) (n : Nat) : VecState α :=
  ⟨[], n⟩

/-- `SimpleVector(const SimpleVector& other)` : buffer of
`other.GetCapacity()` slots, `size_ = other.GetSize()`,
`capacity_ = other.GetCapacity()`, elements copied with `std::copy`. -/
def SimpleVector.copyCtor {α : Type} (other : VecState α) : VecState α :=
  ⟨other.data, other.cap⟩

/-- `SimpleVector(SimpleVector&& other)` : swap with the
default-constructed `*this`; returns (new vector, state other is left in). -/
def SimpleVector.moveCtor {α : Type} (other : VecState α) :
    VecState α × VecState α :=
  (other, ⟨[], 0⟩)

/-- `GetSize()` : `size_`. -/
def SimpleVector.GetSize {α : Type} (s : VecState α) : Nat := s.data.length

/-- `GetCapacity()` : `capacity_`. -/
def SimpleVector.GetCapacity {α : Type} (s : VecState α) : Nat := s.cap

/-- `IsEmpty()` : `GetSize() == 0`. -/
def SimpleVector.IsEmpty {α : Type} (s : VecState α) : Bool :=
  SimpleVector.GetSize s == 0

/-- `operator[](size_t index)` : unchecked read of `items_[index]`
(contract: `index < size_`). -/
def SimpleVector.opIndex {α : Type} [Inhabited α] (s : VecState α)
    (i : Nat) : α :=
  s.data.getD i default

/-- `At(size_t index)` : throws `std::out_of_range("index >= size")`
when `index >= size_`, otherwise returns `items_[index]`. -/
def SimpleVector.At {α : Type} [Inhabited α] (s : VecState α) (i : Nat) :
    Except String α :=
  if i ≥ s.data.length then Except.error "index >= size"
  else Except.ok (s.data.getD i default)

/-- `Clear()` : `size_ = 0`, capacity and buffer untouched. -/
def SimpleVector.Clear {α : Type} (s : VecState α) : VecState α :=
  ⟨[], s.cap⟩

/-- `Resize(size_t new_size)` : if `new_size > capacity_`, reallocate to
`max(new_size, capacity_ * 2)` (moving the live elements over) and fill
`[size_, new_size)` with `Type()`; else if `new_size > size_`, fill
`[size_, new_size)` with `Type()`; in all cases `size_ = new_size`. -/
def SimpleVector.Resize {α : Type} [Inhabited α] (s : VecState α)
    (n : Nat) : VecState α :=
  if n > s.cap then
    ⟨s.data ++ List.replicate (n - s.data.length) default,
     max n (s.cap * 2)⟩
  else if n > s.data.length then
    ⟨s.data ++ List.replicate (n - s.data.length) default, s.cap⟩
  else
    ⟨s.data.take n, s.cap⟩

/-- `PushBack(const Type&)` / `PushBack(Type&&)` : if `size_ + 1 >
capacity_`, reallocate to `max(size_ + 1, capacity_ * 2)` via
`ReallocateCopy` and place the item at slot `size_`; otherwise place it
at slot `size_` in place; then `++size_`. -/
def SimpleVector.PushBack {α : Type} (s : VecState α) (x : α) :
    VecState α :=
  if s.data.length + 1 > s.cap then
    ⟨s.data ++ [x], max (s.data.length + 1) (s.cap * 2)⟩
  else
    ⟨s.data ++ [x], s.cap⟩

/-- `Insert(ConstIterator pos, value)` (both overloads) at offset
`p = pos - cbegin()` (contract: `p ≤ size_`): if `size_ + 1 ≤
capacity_`, shift `[p, size_)` one slot right and assign the value at
`p`; otherwise reallocate to `max(size_ + 1, capacity_ * 2)`, copying
`[0, p)` and `[p, size_)` around the gap and assigning the value at `p`.
Returns the iterator to the inserted element, here its offset `p`. -/
def SimpleVector.Insert {α : Type} (s : VecState α) (p : Nat) (x : α) :
    VecState α × Nat :=
  if s.data.length + 1 ≤ s.cap then
    (⟨s.data.take p ++ x :: s.data.drop p, s.cap⟩, p)
  else
    (⟨s.data.take p ++ x :: s.data.drop p,
      max (s.data.length + 1) (s.cap * 2)⟩, p)

/-- `PopBack()` : returns immediately when `IsEmpty()`, else `--size_`
(the popped slot is not destroyed, it just leaves the live range). -/
def SimpleVector.PopBack {α : Type} (s : VecState α) : VecState α :=
  if s.data.length = 0 then s
  else ⟨s.data.dropLast, s.cap⟩

/-- `Erase(ConstIterator pos)` at offset `p = pos - cbegin()` (contract:
`p < size_`): `std::move` shifts `[p + 1, size_)` left by one,
`--size_`; returns `&items_[p]`, here the offset `p`. -/
def SimpleVector.Erase {α : Type} (s : VecState α) (p : Nat) :
    VecState α × Nat :=
  (⟨s.data.take p ++ s.data.drop (p + 1), s.cap⟩, p)

/-- `swap(SimpleVector& other)` : exchanges buffers, sizes and
capacities. -/
def SimpleVector.swapVec {α : Type} (s t : VecState α) :
    VecState α × VecState α :=
  (t, s)

/-- `Reserve(size_t new_capacity)` : when `new_capacity > capacity_`,
reallocate (moving the `size_` live elements, which fit since
`size_ ≤ capacity_ < new_capacity`) and set `capacity_`; otherwise a
no-op.  `size_` is unchanged. -/
def SimpleVector.Reserve {α : Type} (s : VecState α) (n : Nat) :
    VecState α :=
  if n > s.cap then ⟨s.data, n⟩ else s

/-- `operator=(const SimpleVector& rhs)` : copy-and-swap; `*this`
becomes a copy of `rhs` (size, capacity and elements of `rhs`). -/
def SimpleVector.assignCopy {α : Type} (_s rhs : VecState α) :
    VecState α :=
  ⟨rhs.data, rhs.cap⟩

/-- `operator=(SimpleVector&& rhs)` : move-and-swap; returns the pair
(state of `*this`, state `rhs` is left in). -/
def SimpleVector.assignMove {α : Type} (_s rhs : VecState α) :
    VecState α × VecState α :=
  (rhs, ⟨[], 0⟩)

/-- `operator==` : equal sizes and pairwise-equal elements
(`std::equal` over the live ranges). -/
def SimpleVector.eqVec {α : Type} [DecidableEq α] (l r : VecState α) :
    Bool :=
  l.data == r.data

/-! ## Vector (src/vector.h) -/

/-- `Vector() = default` : size 0, capacity 0. -/
def Vector.emptyVec (α : Type) : VecState α := ⟨[], 0⟩

/-- `Vector(size_t size)` : raw block of `size` slots,
value-constructs `size` elements. -/
def Vector.sized (α : Type) [Inhabited α] (n : Nat) : VecState α :=
  ⟨List.replicate n default, n⟩

/-- `Vector(const Vector& other)` : raw block of `other.size_` slots
(so capacity = other's size), elements copy-constructed with
`std::uninitialized_copy_n`. -/
def Vector.copyCtor {α : Type} (other : VecState α) : VecState α :=
  ⟨other.data, other.data.length⟩

/-- `Vector(Vector&& other)` : swap with the default-constructed
`*this`; returns (new vector, state other is left in). -/
def Vector.moveCtor {α : Type} (other : VecState α) :
    VecState α × VecState α :=
  (other, ⟨[], 0⟩)

/-- `Size()` : `size_`. -/
def Vector.Size {α : Type} (s : VecState α) : Nat := s.data.length

/-- `Capacity()` : `data_.Capacity()`. -/
def Vector.Capacity {α : Type} (s : VecState α) : Nat := s.cap

/-- `operator[](size_t index)` : unchecked read of `data_[index]`
(contract: `index < size_`, asserted in debug builds). -/
def Vector.opIndex {α : Type} [Inhabited α] (s : VecState α) (i : Nat) :
    α :=
  s.data.getD i default

/-- `Reserve(size_t new_capacity)` : no-op when
`new_capacity <= data_.Capacity()`; otherwise allocate a fresh
`RawMemory` of `new_capacity`, transfer the `size_` elements with
`UnitializedN` (move or copy), destroy the originals and swap. -/
def Vector.Reserve {α : Type} (s : VecState α) (n : Nat) : VecState α :=
  if n ≤ s.cap then s else ⟨s.data, n⟩

/-- `Resize(size_t new_size)` : if `size_ > new_size`, destroy the tail
`[new_size, size_)`; else `Reserve(new_size)` then value-construct
`[size_, new_size)`; finally `size_ = new_size`. -/
def Vector.Resize {α : Type} [Inhabited α] (s : VecState α) (n : Nat) :
    VecState α :=
  if s.data.length > n then
    ⟨s.data.take n, s.cap⟩
  else
    ⟨s.data ++ List.replicate (n - s.data.length) default, max s.cap n⟩

/-- `EmplaceBack(Args&&...)` : if `Capacity() == size_`, allocate a new
`RawMemory` of `size_ == 0 ? 1 : size_ * 2`, construct the new element
at slot `size_` of the new block, then transfer the old elements with
`UnitializedN`, destroy the originals and swap; else construct in place
at slot `size_`.  Then `++size_`. -/
def Vector.EmplaceBack {α : Type} (s : VecState α) (x : α) : VecState α :=
  if s.cap = s.data.length then
    ⟨s.data ++ [x], if s.data.length = 0 then 1 else s.data.length * 2⟩
  else
    ⟨s.data ++ [x], s.cap⟩

/-- `PushBack(const T&)` / `PushBack(T&&)` : forwards to
`EmplaceBack`. -/
def Vector.PushBack {α : Type} (s : VecState α) (x : α) : VecState α :=
  Vector.EmplaceBack s x

/-- `PopBack()` : `--size_`, destroy the element at the old `size_ - 1`
(contract: `size_ > 0`; on an empty vector `size_` underflows). -/
def Vector.PopBack {α : Type} (s : VecState α) : VecState α :=
  ⟨s.data.dropLast, s.cap⟩

/-- `Swap(Vector& other)` : swaps the raw buffers and sizes. -/
def Vector.Swap {α : Type} (s t : VecState α) : VecState α × VecState α :=
  (t, s)

/-- `Emplace(const_iterator pos, Args&&...)` at offset
`p = pos - cbegin()` (contract: `p ≤ size_`).  `pos == cend()` forwards
to `EmplaceBack`.  Otherwise, on growth allocate
`size_ == 0 ? 1 : size_ * 2`, construct the new element at slot `p` of
the new block, transfer `[0, p)` and `[p, size_)` around it, destroy
the originals and swap; without growth, move the last element up one
slot, `std::move_backward` `[p, size_ - 1)` to `[p + 1, size_)` and
move-assign the new value at `p`.  Then `++size_`.  Returns
`begin() + p`, here the offset `p`. -/
def Vector.Emplace {α : Type} (s : VecState α) (p : Nat) (x : α) :
    VecState α × Nat :=
  if p = s.data.length then
    (Vector.EmplaceBack s x, p)
  else if s.cap = s.data.length then
    (⟨s.data.take p ++ x :: s.data.drop p,
      if s.data.length = 0 then 1 else s.data.length * 2⟩, p)
  else
    (⟨s.data.take p ++ x :: s.data.drop p, s.cap⟩, p)

/-- `Insert(const_iterator pos, value)` (both overloads) : forwards to
`Emplace`. -/
def Vector.Insert {α : Type} (s : VecState α) (p : Nat) (x : α) :
    VecState α × Nat :=
  Vector.Emplace s p x

/-- `Erase(const_iterator pos)` at offset `p = pos - cbegin()` : when
`pos == cend()` the code calls `PopBack()` and returns `end()`;
otherwise `std::move` shifts `[p + 1, size_)` left by one, `PopBack()`
destroys the vacated last slot, and `begin() + p` is returned. -/
def Vector.Erase {α : Type} (s : VecState α) (p : Nat) :
    VecState α × Nat :=
  if p = s.data.length then
    (Vector.PopBack s, s.data.length - 1)
  else
    (⟨s.data.take p ++ s.data.drop (p + 1), s.cap⟩, p)

/-- `operator=(const Vector& rhs)` : if `rhs.size_ > data_.Capacity()`,
copy-and-swap (capacity becomes `rhs.size_`); otherwise copy element
by element into the existing buffer (capacity unchanged),
constructing or destroying the length difference, and set
`size_ = rhs.size_`. -/
def Vector.assignCopy {α : Type} (s rhs : VecState α) : VecState α :=
  if rhs.data.length > s.cap then
    ⟨rhs.data, rhs.data.length⟩
  else
    ⟨rhs.data, s.cap⟩

/-- `operator=(Vector&& rhs)` : steals the buffer and size of `rhs`;
`rhs.size_` is set to 0 and its buffer pointer nulled.  Returns the
pair (state of `*this`, state `rhs` is left in). -/
def Vector.assignMove {α : Type} (_s rhs : VecState α) :
    VecState α × VecState α :=
  (rhs, ⟨[], 0⟩)

/-! ## Fine-grained model for growth-path failure (claim about
strong exception safety)

To reason about what happens when the construction/assignment of the
new element throws during an append that triggers growth, we refine
the element model: a slot holds either a value or the moved-from
residue left behind by `std::move`.  The operations below translate
the growth paths of `Vector::EmplaceBack` / `Vector::Emplace` and
`SimpleVector::PushBack` step by step, with a flag telling whether the
step that places the new element succeeds; the failure branch is the
state left after C++ stack unwinding (the freshly allocated block is
destroyed by RAII, the member fields keep their old values). -/

/-- An element slot: a live value, or the moved-from residue that
`std::move` leaves in a source slot. -/
inductive MVal (α : Type) where
  | val (a : α)
  | moved
deriving DecidableEq

/-- `std::move` applied to every element of a range, as seen from the
source: each slot is left moved-from. -/
def movedOut {α : Type} (l : List (MVal α)) : List (MVal α) :=
  l.map (fun _ => MVal.moved)

/-- Growth path of `Vector::EmplaceBack` (taken when
`Capacity() == size_`), with `constructOk` telling whether
`new (new_data + size_) T(...)` succeeds.  The construction runs
*before* anything touches `data_` or `size_`: on failure the only
object destroyed during unwinding is the fresh `RawMemory new_data`,
so the vector is exactly as it was.  On success `UnitializedN`
transfers the old elements into the new block, the originals are
destroyed and the blocks are swapped. -/
def Vector.EmplaceBackGrow {α : Type} (s : VecState (MVal α)) (x : α)
    (constructOk : Bool) : VecState (MVal α) :=
  if constructOk then
    ⟨s.data ++ [MVal.val x],
     if s.data.length = 0 then 1 else s.data.length * 2⟩
  else
    s

/-- Growth path of `Vector::Emplace` at offset `p < size_` (taken when
`Capacity() == size_`), with `constructOk` telling whether
`new (new_data + distance) T(...)` succeeds.  As in `EmplaceBack`, the
construction precedes both `UnitializedN` transfers, so on failure the
vector is exactly as it was. -/
def Vector.EmplaceGrow {α : Type} (s : VecState (MVal α)) (p : Nat)
    (x : α) (constructOk : Bool) : VecState (MVal α) :=
  if constructOk then
    ⟨s.data.take p ++ MVal.val x :: s.data.drop p,
     if s.data.length = 0 then 1 else s.data.length * 2⟩
  else
    s

/-- Growth path of `SimpleVector::PushBack` (taken when
`size_ + 1 > capacity_`), with `assignOk` telling whether
`new_items[size_] = item` succeeds.  Here `ReallocateCopy` runs
*first*: it `std::move`s all `size_` live elements into the new block,
leaving the old slots moved-from.  If the assignment then throws,
unwinding destroys `new_items` (with the transferred values), while
`items_`, `size_` and `capacity_` keep their old values — so the
vector still reports the old size, but its live slots hold the
moved-from residues. -/
def SimpleVector.PushBackGrow {α : Type} (s : VecState (MVal α)) (x : α)
    (assignOk : Bool) : VecState (MVal α) :=
  let relocated := movedOut s.data
  if assignOk then
    ⟨s.data ++ [MVal.val x], max (s.data.length + 1) (s.cap * 2)⟩
  else
    ⟨relocated, s.cap⟩

/-! ## Derived sequences -/

/-- A sequence of `SimpleVector::PushBack` calls starting from a
default-constructed vector. -/
def SimpleVector.pushAll {α : Type} (xs : List α) : VecState α :=
  xs.foldl SimpleVector.PushBack (SimpleVector.emptyVec α)

/-- A sequence of `Vector::PushBack` calls starting from a
default-constructed vector. -/
def Vector.pushAll {α : Type} (xs : List α) : VecState α :=
  xs.foldl Vector.PushBack (Vector.emptyVec α)

/-! ## Helper lemmas -/

theorem SimpleVector.sv_pushBack_data {α : Type} (s : VecState α) (x : α) :
    (SimpleVector.PushBack s x).data = s.data ++ [x] := by
  unfold SimpleVector.PushBack
  split <;> rfl

theorem Vector.vec_pushBack_data {α : Type} (s : VecState α) (x : α) :
    (Vector.PushBack s x).data = s.data ++ [x] := by
  unfold Vector.PushBack Vector.EmplaceBack
  split <;> rfl

theorem SimpleVector.sv_foldl_pushBack_data {α : Type} (xs : List α)
    (s : VecState α) :
    (xs.foldl SimpleVector.PushBack s).data = s.data ++ xs := by
  induction xs generalizing s with
  | nil => simp
  | cons y ys ih =>
      simp only [List.foldl_cons, ih, SimpleVector.sv_pushBack_data,
        List.append_assoc, List.singleton_append]

theorem Vector.vec_foldl_pushBack_data {α : Type} (xs : List α)
    (s : VecState α) :
    (xs.foldl Vector.PushBack s).data = s.data ++ xs := by
  induction xs generalizing s with
  | nil => simp
  | cons y ys ih =>
      simp only [List.foldl_cons, ih, Vector.vec_pushBack_data,
        List.append_assoc, List.singleton_append]

theorem SimpleVector.sv_pushAll_data {α : Type} (xs : List α) :
    (SimpleVector.pushAll xs).data = xs := by
  unfold SimpleVector.pushAll
  rw [SimpleVector.sv_foldl_pushBack_data]
  rfl

theorem Vector.vec_pushAll_data {α : Type} (xs : List α) :
    (Vector.pushAll xs).data = xs := by
  unfold Vector.pushAll
  rw [Vector.vec_foldl_pushBack_data]
  rfl

theorem listInsert_length {α : Type} (l : List α) (p : Nat) (x : α)
    (h : p ≤ l.length) :
    (l.take p ++ x :: l.drop p).length = l.length + 1 := by
  simp only [List.length_append, List.length_take, List.length_cons,
    List.length_drop]
  omega

theorem listInsert_take {α : Type} (l : List α) (p : Nat) (x : α)
    (h : p ≤ l.length) :
    (l.take p ++ x :: l.drop p).take p = l.take p :=
  List.take_left' (by simp [List.length_take, Nat.min_eq_left h])

theorem listInsert_getD {α : Type} (l : List α) (p : Nat) (x d : α)
    (h : p ≤ l.length) :
    (l.take p ++ x :: l.drop p).getD p d = x := by
  rw [List.getD_append_right _ _ _ _
    (by simp [List.length_take, Nat.min_eq_left h])]
  simp [List.length_take, Nat.min_eq_left h]

theorem listInsert_drop {α : Type} (l : List α) (p : Nat) (x : α)
    (h : p ≤ l.length) :
    (l.take p ++ x :: l.drop p).drop (p + 1) = l.drop p := by
  have hsplit : l.take p ++ x :: l.drop p =
      (l.take p ++ [x]) ++ l.drop p := by simp
  rw [hsplit, List.drop_left'
    (by simp [List.length_take, Nat.min_eq_left h])]

theorem listErase_length {α : Type} (l : List α) (p : Nat)
    (h : p < l.length) :
    (l.take p ++ l.drop (p + 1)).length = l.length - 1 := by
  simp only [List.length_append, List.length_take, List.length_drop]
  omega

theorem listErase_take {α : Type} (l : List α) (p : Nat)
    (h : p < l.length) :
    (l.take p ++ l.drop (p + 1)).take p = l.take p :=
  List.take_left' (by simp [List.length_take]; omega)

theorem listErase_drop {α : Type} (l : List α) (p : Nat)
    (h : p < l.length) :
    (l.take p ++ l.drop (p + 1)).drop p = l.drop (p + 1) :=
  List.drop_left' (by simp [List.length_take]; omega)

/-! ## Claims -/

/-- C1: For every sequence of N appends (PushBack/EmplaceBack) starting
from an empty vector, the size afterwards equals N, and for every index
i with 0 ≤ i < N, reading element i returns the i-th appended value, in
order — for `SimpleVector::PushBack` and `Vector::PushBack/EmplaceBack`
alike. -/
theorem claim_C1_appends_in_order {α : Type} [Inhabited α]
    (xs : List α) :
    SimpleVector.GetSize (SimpleVector.pushAll xs) = xs.length ∧
    Vector.Size (Vector.pushAll xs) = xs.length ∧
    (∀ i, i < xs.length →
      SimpleVector.opIndex (SimpleVector.pushAll xs) i = xs.getD i default ∧
      Vector.opIndex (Vector.pushAll xs) i = xs.getD i default) := by
  refine ⟨?_, ?_, ?_⟩
  · simp [SimpleVector.GetSize, SimpleVector.sv_pushAll_data]
  · simp [Vector.Size, Vector.vec_pushAll_data]
  · intro i _
    constructor
    · simp [SimpleVector.opIndex, SimpleVector.sv_pushAll_data]
    · simp [Vector.opIndex, Vector.vec_pushAll_data]

/-- Witness for C1 at a concrete append sequence. -/
theorem claim_C1_witness :
    SimpleVector.opIndex (SimpleVector.pushAll [(10 : Int), 20, 30]) 1 =
      [(10 : Int), 20, 30].getD 1 default ∧
    Vector.opIndex (Vector.pushAll [(10 : Int), 20, 30]) 2 =
      [(10 : Int), 20, 30].getD 2 default ∧
    SimpleVector.GetSize (SimpleVector.pushAll [(10 : Int), 20, 30]) = 3 :=
  ⟨((claim_C1_appends_in_order [(10 : Int), 20, 30]).2.2 1 (by decide)).1,
   ((claim_C1_appends_in_order [(10 : Int), 20, 30]).2.2 2 (by decide)).2,
   (claim_C1_appends_in_order [(10 : Int), 20, 30]).1⟩

/-- C2: An append performed when size equals capacity C leaves capacity
exactly max(1, 2·C), and an append never decreases capacity — for
`SimpleVector::PushBack` and `Vector::EmplaceBack` alike. -/
theorem claim_C2_growth_capacity {α : Type} (s : VecState α) (x : α)
    (h : SimpleVector.GetSize s = SimpleVector.GetCapacity s) :
    SimpleVector.GetCapacity (SimpleVector.PushBack s x) =
      max 1 (2 * SimpleVector.GetCapacity s) ∧
    Vector.Capacity (Vector.EmplaceBack s x) =
      max 1 (2 * Vector.Capacity s) ∧
    (∀ (t : VecState α) (y : α),
      SimpleVector.GetCapacity t ≤
        SimpleVector.GetCapacity (SimpleVector.PushBack t y)) ∧
    (∀ (t : VecState α) (y : α),
      Vector.Capacity t ≤ Vector.Capacity (Vector.EmplaceBack t y)) := by
  simp only [SimpleVector.GetSize, SimpleVector.GetCapacity,
    Vector.Capacity] at *
  refine ⟨?_, ?_, ?_, ?_⟩
  · unfold SimpleVector.PushBack
    split
    · simp only []
      omega
    · omega
  · unfold Vector.EmplaceBack
    split
    · next hc => simp only []; split <;> omega
    · next hc => omega
  · intro t y
    unfold SimpleVector.PushBack
    split
    · simp only []
      omega
    · rfl
  · intro t y
    unfold Vector.EmplaceBack
    split
    · next hc => simp only []; split <;> omega
    · rfl

/-- Witness for C2 at a concrete full vector (size = capacity = 2). -/
theorem claim_C2_witness :
    SimpleVector.GetCapacity
      (SimpleVector.PushBack (⟨[(1 : Int), 2], 2⟩ : VecState Int) 9) =
      max 1 (2 * SimpleVector.GetCapacity (⟨[(1 : Int), 2], 2⟩ : VecState Int)) ∧
    Vector.Capacity
      (Vector.EmplaceBack (⟨[(1 : Int), 2], 2⟩ : VecState Int) 9) =
      max 1 (2 * Vector.Capacity (⟨[(1 : Int), 2], 2⟩ : VecState Int)) :=
  ⟨(claim_C2_growth_capacity (⟨[(1 : Int), 2], 2⟩ : VecState Int) 9 (by decide)).1,
   (claim_C2_growth_capacity (⟨[(1 : Int), 2], 2⟩ : VecState Int) 9 (by decide)).2.1⟩

/-- C10: `SimpleVector::PopBack` on an empty vector is a no-op: the
guard `if (IsEmpty()) return;` returns before `--size_`, so size,
capacity and elements are unchanged. -/
theorem claim_C10_popback_empty {α : Type} (s : VecState α)
    (h : SimpleVector.GetSize s = 0) :
    SimpleVector.PopBack s = s := by
  unfold SimpleVector.PopBack
  simp only [SimpleVector.GetSize] at h
  simp [h]

/-- Witness for C10 on a concrete empty vector with nonzero capacity. -/
theorem claim_C10_witness :
    SimpleVector.PopBack (⟨[], 5⟩ : VecState Int) = (⟨[], 5⟩ : VecState Int) :=
  claim_C10_popback_empty (⟨[], 5⟩ : VecState Int) (by decide)

theorem SimpleVector.insert_eq {α : Type} (s : VecState α) (p : Nat)
    (x : α) :
    (SimpleVector.Insert s p x).1.data =
      s.data.take p ++ x :: s.data.drop p ∧
    (SimpleVector.Insert s p x).2 = p := by
  unfold SimpleVector.Insert
  split <;> exact ⟨rfl, rfl⟩

theorem Vector.emplace_eq {α : Type} (s : VecState α) (p : Nat) (x : α)
    (h : p ≤ s.data.length) :
    (Vector.Emplace s p x).1.data =
      s.data.take p ++ x :: s.data.drop p ∧
    (Vector.Emplace s p x).2 = p := by
  unfold Vector.Emplace Vector.EmplaceBack
  by_cases hp : p = s.data.length
  · subst hp
    rw [if_pos rfl]
    refine ⟨?_, rfl⟩
    rw [List.take_length, List.drop_length]
    split <;> rfl
  · rw [if_neg hp]
    split <;> exact ⟨rfl, rfl⟩

theorem Vector.erase_eq {α : Type} (s : VecState α) (p : Nat)
    (h : p < s.data.length) :
    (Vector.Erase s p).1.data = s.data.take p ++ s.data.drop (p + 1) ∧
    (Vector.Erase s p).2 = p := by
  unfold Vector.Erase
  rw [if_neg (Nat.ne_of_lt h)]
  exact ⟨rfl, rfl⟩

/-- C4: Inserting a value at position p (0 ≤ p ≤ size) via
`SimpleVector::Insert` / `Vector::Emplace` (hence `Vector::Insert`)
increases size by 1, leaves the elements before p unchanged, places the
inserted value at p, shifts the elements formerly at [p, size) to
[p+1, size+1), and returns the position p of the inserted element. -/
theorem claim_C4_insert {α : Type} [Inhabited α] (s : VecState α)
    (p : Nat) (x : α) (h : p ≤ SimpleVector.GetSize s) :
    SimpleVector.GetSize (SimpleVector.Insert s p x).1 =
      SimpleVector.GetSize s + 1 ∧
    (SimpleVector.Insert s p x).1.data.take p = s.data.take p ∧
    SimpleVector.opIndex (SimpleVector.Insert s p x).1 p = x ∧
    (SimpleVector.Insert s p x).1.data.drop (p + 1) = s.data.drop p ∧
    (SimpleVector.Insert s p x).2 = p ∧
    Vector.Size (Vector.Emplace s p x).1 = Vector.Size s + 1 ∧
    (Vector.Emplace s p x).1.data.take p = s.data.take p ∧
    Vector.opIndex (Vector.Emplace s p x).1 p = x ∧
    (Vector.Emplace s p x).1.data.drop (p + 1) = s.data.drop p ∧
    (Vector.Emplace s p x).2 = p := by
  simp only [SimpleVector.GetSize] at h
  have hs := SimpleVector.insert_eq s p x
  have hv := Vector.emplace_eq s p x h
  simp only [SimpleVector.GetSize, Vector.Size, SimpleVector.opIndex,
    Vector.opIndex, hs.1, hv.1]
  exact ⟨listInsert_length _ _ _ h, listInsert_take _ _ _ h,
    listInsert_getD _ _ _ _ h, listInsert_drop _ _ _ h, hs.2,
    listInsert_length _ _ _ h, listInsert_take _ _ _ h,
    listInsert_getD _ _ _ _ h, listInsert_drop _ _ _ h, hv.2⟩

/-- Witness for C4 at a concrete vector and position. -/
theorem claim_C4_witness :
    SimpleVector.opIndex
      (SimpleVector.Insert (⟨[(1 : Int), 2, 3], 4⟩ : VecState Int) 1 9).1 1 = 9 ∧
    (SimpleVector.Insert (⟨[(1 : Int), 2, 3], 4⟩ : VecState Int) 1 9).1.data.drop 2 =
      ([(1 : Int), 2, 3] : List Int).drop 1 ∧
    (Vector.Emplace (⟨[(1 : Int), 2, 3], 4⟩ : VecState Int) 1 9).2 = 1 :=
  ⟨(claim_C4_insert (⟨[(1 : Int), 2, 3], 4⟩ : VecState Int) 1 9 (by decide)).2.2.1,
   (claim_C4_insert (⟨[(1 : Int), 2, 3], 4⟩ : VecState Int) 1 9 (by decide)).2.2.2.1,
   (claim_C4_insert (⟨[(1 : Int), 2, 3], 4⟩ : VecState Int) 1 9 (by decide)).2.2.2.2.2.2.2.2.2⟩

/-- C5: Removing at position p (0 ≤ p < size) via `SimpleVector::Erase`
/ `Vector::Erase` decreases size by 1, leaves the elements before p
unchanged, shifts the elements formerly at [p+1, size) to [p, size-1),
and returns position p (the element that took the removed one's place,
which is the new end when the last element was removed). -/
theorem claim_C5_erase {α : Type} (s : VecState α) (p : Nat)
    (h : p < SimpleVector.GetSize s) :
    SimpleVector.GetSize (SimpleVector.Erase s p).1 =
      SimpleVector.GetSize s - 1 ∧
    (SimpleVector.Erase s p).1.data.take p = s.data.take p ∧
    (SimpleVector.Erase s p).1.data.drop p = s.data.drop (p + 1) ∧
    (SimpleVector.Erase s p).2 = p ∧
    Vector.Size (Vector.Erase s p).1 = Vector.Size s - 1 ∧
    (Vector.Erase s p).1.data.take p = s.data.take p ∧
    (Vector.Erase s p).1.data.drop p = s.data.drop (p + 1) ∧
    (Vector.Erase s p).2 = p := by
  simp only [SimpleVector.GetSize] at h
  have hv := Vector.erase_eq s p h
  simp only [SimpleVector.GetSize, Vector.Size, SimpleVector.Erase,
    hv.1]
  exact ⟨listErase_length _ _ h, listErase_take _ _ h,
    listErase_drop _ _ h, trivial,
    listErase_length _ _ h, listErase_take _ _ h,
    listErase_drop _ _ h, hv.2⟩

/-- Witness for C5 at a concrete vector and position. -/
theorem claim_C5_witness :
    SimpleVector.GetSize
      (SimpleVector.Erase (⟨[(1 : Int), 2, 3], 4⟩ : VecState Int) 1).1 =
      SimpleVector.GetSize (⟨[(1 : Int), 2, 3], 4⟩ : VecState Int) - 1 ∧
    (Vector.Erase (⟨[(1 : Int), 2, 3], 4⟩ : VecState Int) 1).2 = 1 :=
  ⟨(claim_C5_erase (⟨[(1 : Int), 2, 3], 4⟩ : VecState Int) 1 (by decide)).1,
   (claim_C5_erase (⟨[(1 : Int), 2, 3], 4⟩ : VecState Int) 1 (by decide)).2.2.2.2.2.2.2⟩

/-- C6 counterexample: the claim says copy-construction yields capacity
equal to the source's *size*.  `SimpleVector`'s copy constructor uses
`other.GetCapacity()` for the new buffer, so copying a vector of size 1
and capacity 2 yields capacity 2, not 1. -/
theorem claim_C6_counterexample :
    ¬ (SimpleVector.GetCapacity
         (SimpleVector.copyCtor (⟨[(5 : Int)], 2⟩ : VecState Int)) =
       SimpleVector.GetSize (⟨[(5 : Int)], 2⟩ : VecState Int)) := by
  decide

/-- C6 (amended): copy-construction yields equal size and pairwise
equal elements for both containers; the copy's capacity is the
source's size for `Vector` but the source's *capacity* for
`SimpleVector`.  (Storage independence is immediate in this value
model: the copy is a fresh value sharing no mutable state.) -/
theorem claim_C6_copy_ctor {α : Type} (b : VecState α) :
    SimpleVector.GetSize (SimpleVector.copyCtor b) =
      SimpleVector.GetSize b ∧
    (SimpleVector.copyCtor b).data = b.data ∧
    SimpleVector.GetCapacity (SimpleVector.copyCtor b) =
      SimpleVector.GetCapacity b ∧
    Vector.Size (Vector.copyCtor b) = Vector.Size b ∧
    (Vector.copyCtor b).data = b.data ∧
    Vector.Capacity (Vector.copyCtor b) = Vector.Size b :=
  ⟨rfl, rfl, rfl, rfl, rfl, rfl⟩

/-- C7: `SimpleVector::At(index)` signals `std::out_of_range` with the
message "index >= size" exactly when `index ≥ size`, and returns the
element at `index` when `index < size`.  (`At` reads the state and
never mutates it.) -/
theorem claim_C7_at_checked {α : Type} [Inhabited α] (s : VecState α)
    (i : Nat) :
    (SimpleVector.At s i = Except.error "index >= size" ↔
      SimpleVector.GetSize s ≤ i) ∧
    (i < SimpleVector.GetSize s →
      SimpleVector.At s i = Except.ok (SimpleVector.opIndex s i)) := by
  unfold SimpleVector.At
  simp only [SimpleVector.GetSize, SimpleVector.opIndex]
  constructor
  · constructor
    · intro he
      by_contra hlt
      rw [if_neg (by omega)] at he
      cases he
    · intro hge
      rw [if_pos hge]
  · intro hlt
    rw [if_neg (by omega)]

/-- Witness for C7: both outcomes of `At` at concrete inputs. -/
theorem claim_C7_witness :
    SimpleVector.At (⟨[(7 : Int)], 1⟩ : VecState Int) 0 =
      Except.ok (SimpleVector.opIndex (⟨[(7 : Int)], 1⟩ : VecState Int) 0) ∧
    SimpleVector.At (⟨[(7 : Int)], 1⟩ : VecState Int) 3 =
      Except.error "index >= size" :=
  ⟨(claim_C7_at_checked (⟨[(7 : Int)], 1⟩ : VecState Int) 0).2 (by decide),
   (claim_C7_at_checked (⟨[(7 : Int)], 1⟩ : VecState Int) 3).1.mpr (by decide)⟩

/-- C8 counterexample: the claim says that when newSize > capacity the
capacity becomes exactly newSize.  `SimpleVector::Resize` reallocates
to `max(new_size, capacity_ * 2)`: resizing a size-4/capacity-4 vector
to 5 yields capacity 8, not 5. -/
theorem claim_C8_counterexample :
    ¬ (SimpleVector.GetCapacity
         (SimpleVector.Resize (⟨[(1 : Int), 2, 3, 4], 4⟩ : VecState Int) 5) =
       5) := by
  decide

/-- C8 (amended): for `newSize < size` both `Resize`s truncate to the
first newSize elements, leaving capacity unchanged; for
`newSize > capacity`, `Vector::Resize` (via `Reserve`) makes the
capacity exactly newSize, while `SimpleVector::Resize` makes it
`max(newSize, 2·capacity)`; both preserve the first size elements,
default-construct the slots `[size, newSize)`, and set size to
newSize. -/
theorem claim_C8_resize {α : Type} [Inhabited α] (s : VecState α)
    (n : Nat) :
    (n < SimpleVector.GetSize s →
      SimpleVector.GetSize s ≤ SimpleVector.GetCapacity s →
      SimpleVector.Resize s n = ⟨s.data.take n, s.cap⟩ ∧
      Vector.Resize s n = ⟨s.data.take n, s.cap⟩) ∧
    (SimpleVector.GetCapacity s < n →
      SimpleVector.GetSize s ≤ SimpleVector.GetCapacity s →
      SimpleVector.Resize s n =
        ⟨s.data ++ List.replicate (n - s.data.length) default,
         max n (s.cap * 2)⟩ ∧
      Vector.Resize s n =
        ⟨s.data ++ List.replicate (n - s.data.length) default, n⟩) := by
  simp only [SimpleVector.GetSize, SimpleVector.GetCapacity]
  constructor
  · intro hn hinv
    constructor
    · unfold SimpleVector.Resize
      rw [if_neg (by omega), if_neg (by omega)]
    · unfold Vector.Resize
      rw [if_pos (by omega)]
  · intro hn hinv
    constructor
    · unfold SimpleVector.Resize
      rw [if_pos (by omega)]
    · unfold Vector.Resize
      rw [if_neg (by omega)]
      have : max s.cap n = n := by omega
      rw [this]

/-- Witness for C8: a concrete shrink and a concrete growth. -/
theorem claim_C8_witness :
    SimpleVector.Resize (⟨[(1 : Int), 2, 3], 4⟩ : VecState Int) 2 =
      ⟨([(1 : Int), 2, 3] : List Int).take 2, 4⟩ ∧
    Vector.Resize (⟨[(1 : Int)], 1⟩ : VecState Int) 3 =
      ⟨[(1 : Int)] ++ List.replicate (3 - ([(1 : Int)] : List Int).length) default, 3⟩ :=
  ⟨((claim_C8_resize (⟨[(1 : Int), 2, 3], 4⟩ : VecState Int) 2).1
      (by decide) (by decide)).1,
   ((claim_C8_resize (⟨[(1 : Int)], 1⟩ : VecState Int) 3).2
      (by decide) (by decide)).2⟩

/-- C3 counterexample: on a full `SimpleVector` of one element,
`PushBack` first runs `ReallocateCopy`, which moves the old element
into the new block; if the subsequent assignment
`new_items[size_] = item` fails, the pre-operation state is *not*
intact — the live slot holds a moved-from residue instead of its old
value. -/
theorem claim_C3_counterexample :
    ¬ (SimpleVector.PushBackGrow
         (⟨[MVal.val (5 : Int)], 1⟩ : VecState (MVal Int)) 7 false =
       (⟨[MVal.val (5 : Int)], 1⟩ : VecState (MVal Int))) := by
  decide

/-- C3 (amended): in `Vector::EmplaceBack` and `Vector::Emplace` the
new element is constructed in the new block *before* any relocation,
so a failed construction leaves the vector exactly as it was.  In
`SimpleVector::PushBack`, `ReallocateCopy` relocates (moves out) the
old elements before the new element is assigned; a failed assignment
leaves size and capacity unchanged but every live slot moved-from. -/
theorem claim_C3_growth_failure {α : Type} (s : VecState (MVal α))
    (x : α) (p : Nat) :
    Vector.EmplaceBackGrow s x false = s ∧
    Vector.EmplaceGrow s p x false = s ∧
    SimpleVector.GetSize (SimpleVector.PushBackGrow s x false) =
      SimpleVector.GetSize s ∧
    SimpleVector.GetCapacity (SimpleVector.PushBackGrow s x false) =
      SimpleVector.GetCapacity s ∧
    (SimpleVector.PushBackGrow s x false).data = movedOut s.data := by
  refine ⟨rfl, rfl, ?_, rfl, rfl⟩
  simp [SimpleVector.GetSize, SimpleVector.PushBackGrow, movedOut]

/-! ## Reachable states and the size ≤ capacity invariant -/

/-- States reachable through the public `SimpleVector` interface, each
call used within its documented contract (insert positions in
[0, size], erase positions in [0, size)). -/
inductive SimpleVector.Reachable {α : Type} [Inhabited α] :
    VecState α → Prop where
  | emptyVec : SimpleVector.Reachable (SimpleVector.emptyVec α)
  | sized (n : Nat) : SimpleVector.Reachable (SimpleVector.sized α n)
  | sizedVal (n : Nat) (v : α) :
      SimpleVector.Reachable (SimpleVector.sizedVal n v)
  | initListCtor (l : List α) :
      SimpleVector.Reachable (SimpleVector.initListCtor l)
  | reserveProxyCtor (n : Nat) :
      SimpleVector.Reachable (SimpleVector.reserveProxyCtor α n)
  | copyCtor (s : VecState α) : SimpleVector.Reachable s →
      SimpleVector.Reachable (SimpleVector.copyCtor s)
  | moveCtorNew (s : VecState α) : SimpleVector.Reachable s →
      SimpleVector.Reachable (SimpleVector.moveCtor s).1
  | moveCtorOld (s : VecState α) : SimpleVector.Reachable s →
      SimpleVector.Reachable (SimpleVector.moveCtor s).2
  | push (s : VecState α) (x : α) : SimpleVector.Reachable s →
      SimpleVector.Reachable (SimpleVector.PushBack s x)
  | insert (s : VecState α) (p : Nat) (x : α) : SimpleVector.Reachable s →
      p ≤ s.data.length →
      SimpleVector.Reachable (SimpleVector.Insert s p x).1
  | erase (s : VecState α) (p : Nat) : SimpleVector.Reachable s →
      p < s.data.length →
      SimpleVector.Reachable (SimpleVector.Erase s p).1
  | pop (s : VecState α) : SimpleVector.Reachable s →
      SimpleVector.Reachable (SimpleVector.PopBack s)
  | clear (s : VecState α) : SimpleVector.Reachable s →
      SimpleVector.Reachable (SimpleVector.Clear s)
  | resize (s : VecState α) (n : Nat) : SimpleVector.Reachable s →
      SimpleVector.Reachable (SimpleVector.Resize s n)
  | reserve (s : VecState α) (n : Nat) : SimpleVector.Reachable s →
      SimpleVector.Reachable (SimpleVector.Reserve s n)
  | assignCopy (s t : VecState α) : SimpleVector.Reachable s →
      SimpleVector.Reachable t →
      SimpleVector.Reachable (SimpleVector.assignCopy s t)
  | assignMoveNew (s t : VecState α) : SimpleVector.Reachable s →
      SimpleVector.Reachable t →
      SimpleVector.Reachable (SimpleVector.assignMove s t).1
  | assignMoveOld (s t : VecState α) : SimpleVector.Reachable s →
      SimpleVector.Reachable t →
      SimpleVector.Reachable (SimpleVector.assignMove s t).2
  | swapFst (s t : VecState α) : SimpleVector.Reachable s →
      SimpleVector.Reachable t →
      SimpleVector.Reachable (SimpleVector.swapVec s t).1
  | swapSnd (s t : VecState α) : SimpleVector.Reachable s →
      SimpleVector.Reachable t →
      SimpleVector.Reachable (SimpleVector.swapVec s t).2

/-- States reachable through the public `Vector` interface, each call
used within its documented contract (emplace positions in [0, size],
erase positions in [0, size] with a nonempty vector at size, pop only
on nonempty vectors). -/
inductive Vector.Reachable {α : Type} [Inhabited α] :
    VecState α → Prop where
  | emptyVec : Vector.Reachable (Vector.emptyVec α)
  | sized (n : Nat) : Vector.Reachable (Vector.sized α n)
  | copyCtor (s : VecState α) : Vector.Reachable s →
      Vector.Reachable (Vector.copyCtor s)
  | moveCtorNew (s : VecState α) : Vector.Reachable s →
      Vector.Reachable (Vector.moveCtor s).1
  | moveCtorOld (s : VecState α) : Vector.Reachable s →
      Vector.Reachable (Vector.moveCtor s).2
  | reserve (s : VecState α) (n : Nat) : Vector.Reachable s →
      Vector.Reachable (Vector.Reserve s n)
  | resize (s : VecState α) (n : Nat) : Vector.Reachable s →
      Vector.Reachable (Vector.Resize s n)
  | emplaceBack (s : VecState α) (x : α) : Vector.Reachable s →
      Vector.Reachable (Vector.EmplaceBack s x)
  | pushBack (s : VecState α) (x : α) : Vector.Reachable s →
      Vector.Reachable (Vector.PushBack s x)
  | popBack (s : VecState α) : Vector.Reachable s →
      0 < s.data.length → Vector.Reachable (Vector.PopBack s)
  | emplace (s : VecState α) (p : Nat) (x : α) : Vector.Reachable s →
      p ≤ s.data.length → Vector.Reachable (Vector.Emplace s p x).1
  | eraseMid (s : VecState α) (p : Nat) : Vector.Reachable s →
      p < s.data.length → Vector.Reachable (Vector.Erase s p).1
  | eraseEnd (s : VecState α) : Vector.Reachable s →
      0 < s.data.length →
      Vector.Reachable (Vector.Erase s s.data.length).1
  | swapFst (s t : VecState α) : Vector.Reachable s →
      Vector.Reachable t → Vector.Reachable (Vector.Swap s t).1
  | swapSnd (s t : VecState α) : Vector.Reachable s →
      Vector.Reachable t → Vector.Reachable (Vector.Swap s t).2
  | assignCopy (s t : VecState α) : Vector.Reachable s →
      Vector.Reachable t → Vector.Reachable (Vector.assignCopy s t)
  | assignMoveNew (s t : VecState α) : Vector.Reachable s →
      Vector.Reachable t → Vector.Reachable (Vector.assignMove s t).1
  | assignMoveOld (s t : VecState α) : Vector.Reachable s →
      Vector.Reachable t → Vector.Reachable (Vector.assignMove s t).2

theorem SimpleVector.sv_reachable_size_le_cap {α : Type} [Inhabited α]
    (s : VecState α) (h : SimpleVector.Reachable s) :
    s.data.length ≤ s.cap := by
  induction h with
  | emptyVec => simp [SimpleVector.emptyVec]
  | sized n => simp [SimpleVector.sized]
  | sizedVal n v => simp [SimpleVector.sizedVal]
  | initListCtor l => simp [SimpleVector.initListCtor]
  | reserveProxyCtor n => simp [SimpleVector.reserveProxyCtor]
  | copyCtor s hr ih => simpa [SimpleVector.copyCtor] using ih
  | moveCtorNew s hr ih => simpa [SimpleVector.moveCtor] using ih
  | moveCtorOld s hr ih => simp [SimpleVector.moveCtor]
  | push s x hr ih =>
      unfold SimpleVector.PushBack
      split
      · next hgt =>
          show (s.data ++ [x]).length ≤ max (s.data.length + 1) (s.cap * 2)
          simp only [List.length_append, List.length_cons,
            List.length_nil]
          omega
      · next hle =>
          show (s.data ++ [x]).length ≤ s.cap
          simp only [List.length_append, List.length_cons,
            List.length_nil]
          omega
  | insert s p x hr hp ih =>
      unfold SimpleVector.Insert
      split
      · next hle =>
          show (s.data.take p ++ x :: s.data.drop p).length ≤ s.cap
          rw [listInsert_length _ _ _ hp]
          omega
      · next hgt =>
          show (s.data.take p ++ x :: s.data.drop p).length ≤
            max (s.data.length + 1) (s.cap * 2)
          rw [listInsert_length _ _ _ hp]
          omega
  | erase s p hr hp ih =>
      show (s.data.take p ++ s.data.drop (p + 1)).length ≤ s.cap
      rw [listErase_length _ _ hp]
      omega
  | pop s hr ih =>
      unfold SimpleVector.PopBack
      split
      · exact ih
      · show s.data.dropLast.length ≤ s.cap
        simp only [List.length_dropLast]
        omega
  | clear s hr ih => simp [SimpleVector.Clear]
  | resize s n hr ih =>
      unfold SimpleVector.Resize
      split
      · next hgt =>
          show (s.data ++ List.replicate (n - s.data.length) default).length ≤
            max n (s.cap * 2)
          simp only [List.length_append, List.length_replicate]
          omega
      · next hle =>
          split
          · next hgs =>
              show (s.data ++ List.replicate (n - s.data.length) default).length ≤
                s.cap
              simp only [List.length_append, List.length_replicate]
              omega
          · next hls =>
              show (s.data.take n).length ≤ s.cap
              simp only [List.length_take]
              omega
  | reserve s n hr ih =>
      unfold SimpleVector.Reserve
      split
      · next hgt =>
          show s.data.length ≤ n
          omega
      · exact ih
  | assignCopy s t hrs hrt ihs iht =>
      simpa [SimpleVector.assignCopy] using iht
  | assignMoveNew s t hrs hrt ihs iht =>
      simpa [SimpleVector.assignMove] using iht
  | assignMoveOld s t hrs hrt ihs iht => simp [SimpleVector.assignMove]
  | swapFst s t hrs hrt ihs iht =>
      simpa [SimpleVector.swapVec] using iht
  | swapSnd s t hrs hrt ihs iht =>
      simpa [SimpleVector.swapVec] using ihs

theorem Vector.vec_reachable_size_le_cap {α : Type} [Inhabited α]
    (s : VecState α) (h : Vector.Reachable s) :
    s.data.length ≤ s.cap := by
  induction h with
  | emptyVec => simp [Vector.emptyVec]
  | sized n => simp [Vector.sized]
  | copyCtor s hr ih => simp [Vector.copyCtor]
  | moveCtorNew s hr ih => simpa [Vector.moveCtor] using ih
  | moveCtorOld s hr ih => simp [Vector.moveCtor]
  | reserve s n hr ih =>
      unfold Vector.Reserve
      split
      · exact ih
      · next hgt =>
          show s.data.length ≤ n
          omega
  | resize s n hr ih =>
      unfold Vector.Resize
      split
      · next hgt =>
          show (s.data.take n).length ≤ s.cap
          simp only [List.length_take]
          omega
      · next hle =>
          show (s.data ++ List.replicate (n - s.data.length) default).length ≤
            max s.cap n
          simp only [List.length_append, List.length_replicate]
          omega
  | emplaceBack s x hr ih =>
      unfold Vector.EmplaceBack
      split
      · next hc =>
          show (s.data ++ [x]).length ≤
            if s.data.length = 0 then 1 else s.data.length * 2
          simp only [List.length_append, List.length_cons,
            List.length_nil]
          split <;> omega
      · next hc =>
          show (s.data ++ [x]).length ≤ s.cap
          simp only [List.length_append, List.length_cons,
            List.length_nil]
          omega
  | pushBack s x hr ih =>
      unfold Vector.PushBack Vector.EmplaceBack
      split
      · next hc =>
          show (s.data ++ [x]).length ≤
            if s.data.length = 0 then 1 else s.data.length * 2
          simp only [List.length_append, List.length_cons,
            List.length_nil]
          split <;> omega
      · next hc =>
          show (s.data ++ [x]).length ≤ s.cap
          simp only [List.length_append, List.length_cons,
            List.length_nil]
          omega
  | popBack s hr h0 ih =>
      show s.data.dropLast.length ≤ s.cap
      simp only [List.length_dropLast]
      omega
  | emplace s p x hr hp ih =>
      unfold Vector.Emplace Vector.EmplaceBack
      split
      · next hpe =>
          split
          · next hc =>
              show (s.data ++ [x]).length ≤
                if s.data.length = 0 then 1 else s.data.length * 2
              simp only [List.length_append, List.length_cons,
                List.length_nil]
              split <;> omega
          · next hc =>
              show (s.data ++ [x]).length ≤ s.cap
              simp only [List.length_append, List.length_cons,
                List.length_nil]
              omega
      · next hpe =>
          split
          · next hc =>
              show (s.data.take p ++ x :: s.data.drop p).length ≤
                if s.data.length = 0 then 1 else s.data.length * 2
              rw [listInsert_length _ _ _ hp]
              split <;> omega
          · next hc =>
              show (s.data.take p ++ x :: s.data.drop p).length ≤ s.cap
              rw [listInsert_length _ _ _ hp]
              omega
  | eraseMid s p hr hp ih =>
      unfold Vector.Erase
      rw [if_neg (Nat.ne_of_lt hp)]
      show (s.data.take p ++ s.data.drop (p + 1)).length ≤ s.cap
      rw [listErase_length _ _ hp]
      omega
  | eraseEnd s hr h0 ih =>
      unfold Vector.Erase
      rw [if_pos rfl]
      show s.data.dropLast.length ≤ s.cap
      simp only [List.length_dropLast]
      omega
  | swapFst s t hrs hrt ihs iht => simpa [Vector.Swap] using iht
  | swapSnd s t hrs hrt ihs iht => simpa [Vector.Swap] using ihs
  | assignCopy s t hrs hrt ihs iht =>
      unfold Vector.assignCopy
      split
      · next hgt =>
          show t.data.length ≤ t.data.length
          exact Nat.le_refl _
      · next hle =>
          show t.data.length ≤ s.cap
          omega
  | assignMoveNew s t hrs hrt ihs iht =>
      simpa [Vector.assignMove] using iht
  | assignMoveOld s t hrs hrt ihs iht => simp [Vector.assignMove]

/-- C9: every vector state reachable through the public interface of
`SimpleVector` or `Vector` (constructors, Reserve, Resize, append,
insert, erase, pop, swap, assignment, Clear, each used within its
documented contract) satisfies size ≤ capacity. -/
theorem claim_C9_size_le_capacity {α : Type} [Inhabited α] :
    (∀ s : VecState α, SimpleVector.Reachable s →
      SimpleVector.GetSize s ≤ SimpleVector.GetCapacity s) ∧
    (∀ v : VecState α, Vector.Reachable v →
      Vector.Size v ≤ Vector.Capacity v) :=
  ⟨fun s h => SimpleVector.sv_reachable_size_le_cap s h,
   fun v h => Vector.vec_reachable_size_le_cap v h⟩

/-- Witness for C9 on concrete reachable states. -/
theorem claim_C9_witness :
    SimpleVector.GetSize (SimpleVector.PushBack (SimpleVector.emptyVec Int) 5) ≤
      SimpleVector.GetCapacity (SimpleVector.PushBack (SimpleVector.emptyVec Int) 5) ∧
    Vector.Size (Vector.EmplaceBack (Vector.emptyVec Int) 5) ≤
      Vector.Capacity (Vector.EmplaceBack (Vector.emptyVec Int) 5) :=
  ⟨(claim_C9_size_le_capacity).1 _
      (SimpleVector.Reachable.push _ 5 SimpleVector.Reachable.emptyVec),
   (claim_C9_size_le_capacity).2 _
      (Vector.Reachable.emplaceBack _ 5 Vector.Reachable.emptyVec)⟩
